import Mathlib

/-!
Verification of the keystroke-dynamics engine of this repository.

The engine lives in PL/pgSQL migrations:
* validate_keystroke_array and normalize_keystroke_pattern
  (migration 20250216073327_flat_meadow.sql, the operative definitions),
* calculate_adaptive_threshold (migration 20250216072921_square_silence.sql),
* verify_keystroke_pattern (the latest migration, "Fix keystroke verification
  array handling"),
* the LoginPage caller (React component) that invokes verify_keystroke_pattern
  and records auth_attempts rows.

The embedding models the relational tables as in-memory lists of rows and each
SQL function as a Lean function over them.  SQL NULL is modelled with Option,
double precision with ℝ, aggregate avg/stddev with explicit list folds
(Postgres stddev is the sample standard deviation and is NULL on fewer than
two rows), ORDER BY with insertion sorts on the relevant key, and LIMIT with
List.take.  The pairwise-comparison query of verify_keystroke_pattern
(unnest WITH ORDINALITY joined on idx, grouped per historical pattern) is
embedded as a map over the list of selected historical patterns, comparing
index-aligned pairs, which is the comparison the join denotes.
-/

namespace Keystroke

/-- One row of the keystroke_data table.  dwell_time and flight_time are
nullable double precision columns. -/
structure KeystrokeRow where
  session_id : ℕ
  created_at : ℕ
  dwell_time : Option ℝ
  flight_time : Option ℝ

/-- One row of the keystroke_sessions table. -/
structure SessionRow where
  id : ℕ
  user_id : ℕ

/-- One row of the auth_attempts table.  metadata_score is the value of
metadata->>'match_score' (NULL when the metadata object is absent or has no
such key, as for rows inserted by the LoginPage flow). -/
structure AuthAttemptRow where
  user_id : ℕ
  success : Bool
  keystroke_match : Bool
  location_match : Bool
  attempted_at : ℤ
  metadata_score : Option ℝ

/-- The database snapshot a verification call reads. -/
structure DB where
  keystroke_data : List KeystrokeRow
  keystroke_sessions : List SessionRow
  auth_attempts : List AuthAttemptRow

/-- Insertion step for ORDER BY created_at (ascending). -/
def insertByCreated (r : KeystrokeRow) : List KeystrokeRow → List KeystrokeRow
  | [] => [r]
  | x :: xs =>
      if r.created_at ≤ x.created_at then r :: x :: xs else x :: insertByCreated r xs

/-- ORDER BY created_at over keystroke rows. -/
def sortByCreated (l : List KeystrokeRow) : List KeystrokeRow :=
  l.foldr insertByCreated []

/-- Insertion step for ORDER BY attempted_at DESC. -/
def insertByAttemptedDesc (a : AuthAttemptRow) :
    List AuthAttemptRow → List AuthAttemptRow
  | [] => [a]
  | x :: xs =>
      if x.attempted_at ≤ a.attempted_at then a :: x :: xs
      else x :: insertByAttemptedDesc a xs

/-- ORDER BY attempted_at DESC over auth attempts. -/
def sortByAttemptedDesc (l : List AuthAttemptRow) : List AuthAttemptRow :=
  l.foldr insertByAttemptedDesc []

/-- Insertion step producing a strictly ascending id list (DISTINCT ON (ks.id)
combined with ORDER BY ks.id). -/
def insertIdAsc (n : ℕ) : List ℕ → List ℕ
  | [] => [n]
  | x :: xs =>
      if n < x then n :: x :: xs
      else if n = x then x :: xs
      else x :: insertIdAsc n xs

/-- Distinct session ids in ascending order. -/
def sortedIds (l : List ℕ) : List ℕ :=
  l.foldr insertIdAsc []

/-- Mean of a list of reals; 0 on the empty list, which matches how the SQL
wraps every avg aggregate in COALESCE(..., 0) on the paths modelled here. -/
noncomputable def listMean (l : List ℝ) : ℝ :=
  l.sum / l.length

/-- Sum of squared deviations from the mean. -/
noncomputable def sqDevSum (l : List ℝ) : ℝ :=
  (l.map (fun x => (x - listMean l) ^ 2)).sum

/-- Postgres stddev (sample standard deviation): NULL on fewer than two rows,
sqrt of the sum of squared deviations over (count - 1) otherwise. -/
noncomputable def stddevSamp (l : List ℝ) : Option ℝ :=
  if l.length ≤ 1 then none
  else some (Real.sqrt (sqDevSum l / ((l.length : ℝ) - 1)))

/-- GREATEST(stddev, floorValue) with the Postgres NULL rule: GREATEST ignores
NULL arguments, so a NULL standard deviation leaves just the floor. -/
noncomputable def greatestWithFloor (o : Option ℝ) (floorValue : ℝ) : ℝ :=
  match o with
  | none => floorValue
  | some s => max s floorValue

/-- The multiset of left-hand values produced by the cross join
FROM unnest(d) x, unnest(f) y: every element of d appears once per element
of f. -/
def crossLeft (d f : List ℝ) : List ℝ :=
  d.flatMap (fun x => List.replicate f.length x)

/-- validate_keystroke_array (flat_meadow migration): NULL, negative, or
over-5000 entries become 0, everything else is kept. -/
noncomputable def validate_keystroke_array (arr : List (Option ℝ)) : List ℝ :=
  arr.map (fun o =>
    match o with
    | none => 0
    | some v => if v < 0 ∨ 5000 < v then 0 else v)

/-- validate_keystroke_array restricted to arrays without NULL entries, as the
arrays handed to normalize_keystroke_pattern inside verify_keystroke_pattern
always are (they come out of CASE expressions that eliminated NULL). -/
noncomputable def validateVals (xs : List ℝ) : List ℝ :=
  xs.map (fun v => if v < 0 ∨ 5000 < v then 0 else v)

/-- normalize_keystroke_pattern (flat_meadow migration).  Validates both
arrays, returns NULL on a length mismatch, computes the dwell and flight
statistics in a single SELECT over the cross join
FROM unnest(dwell_times) d, unnest(flight_times) f (so each aggregate ranges
over n*n rows), floors each standard deviation at 1e-4 via GREATEST, and emits
one (dwell_z, flight_z) pair per index. -/
noncomputable def normalize_keystroke_pattern (dwell_times flight_times : List ℝ) :
    Option (List (ℝ × ℝ)) :=
  let d := validateVals dwell_times
  let f := validateVals flight_times
  if d.length ≠ f.length then none
  else
    let dwell_mean := listMean (crossLeft d f)
    let dwell_std := greatestWithFloor (stddevSamp (crossLeft d f)) (1 / 10000)
    let flight_mean := listMean (crossLeft f d)
    let flight_std := greatestWithFloor (stddevSamp (crossLeft f d)) (1 / 10000)
    some ((d.zip f).map (fun p =>
      ((p.1 - dwell_mean) / dwell_std, (p.2 - flight_mean) / flight_std)))

/-- Filter of calculate_adaptive_threshold: the subject's successful attempts
inside the 7-day window (modelling now() - interval '7 days' as
now - 604800 on an integer timeline of seconds). -/
def qualifiesForThreshold (user_id : ℕ) (now : ℤ) (aa : AuthAttemptRow) : Bool :=
  aa.user_id == user_id && aa.success && decide (now - 604800 < aa.attempted_at)

/-- The match scores feeding the adaptive threshold: qualifying attempts,
most recent first, capped at the 10 newest rows, keeping only rows whose
metadata carries a match_score (avg ignores NULL inputs). -/
noncomputable def thresholdScores (db : DB) (user_id : ℕ) (now : ℤ) : List ℝ :=
  ((sortByAttemptedDesc (db.auth_attempts.filter
      (qualifiesForThreshold user_id now))).take 10).filterMap
    (fun aa => aa.metadata_score)

/-- calculate_adaptive_threshold (square_silence migration) with the default
cap of 10 recent attempts: 0.8 times the average recent successful match
score, falling back to 0.7 when no score is available. -/
noncomputable def calculate_adaptive_threshold (db : DB) (user_id : ℕ) (now : ℤ) : ℝ :=
  let recent_scores := thresholdScores db user_id now
  if recent_scores.length = 0 then 0.7
  else recent_scores.sum / recent_scores.length * 0.8

/-- Rows of the current session read by verify_keystroke_pattern: the
session's keystroke_data rows with dwell_time IS NOT NULL, ordered by
created_at. -/
def currentRows (db : DB) (session_id : ℕ) : List KeystrokeRow :=
  sortByCreated (db.keystroke_data.filter
    (fun r => r.session_id == session_id && r.dwell_time.isSome))

/-- CASE WHEN dwell_time IS NULL OR dwell_time <= 0 THEN 0 ELSE dwell_time. -/
noncomputable def sanitizeDwell (o : Option ℝ) : ℝ :=
  match o with
  | none => 0
  | some d => if d ≤ 0 then 0 else d

/-- CASE WHEN flight_time IS NULL OR flight_time < 0 THEN 0 ELSE flight_time. -/
noncomputable def sanitizeFlight (o : Option ℝ) : ℝ :=
  match o with
  | none => 0
  | some f => if f < 0 then 0 else f

/-- The current session's sanitized dwell series. -/
noncomputable def currentDwell (db : DB) (session_id : ℕ) : List ℝ :=
  (currentRows db session_id).map (fun r => sanitizeDwell r.dwell_time)

/-- The current session's sanitized flight series. -/
noncomputable def currentFlight (db : DB) (session_id : ℕ) : List ℝ :=
  (currentRows db session_id).map (fun r => sanitizeFlight r.flight_time)

/-- All keystroke rows of a historical session, ordered by created_at (no
dwell IS NOT NULL filter appears in the historical branch of the SQL). -/
def histRows (db : DB) (session_id : ℕ) : List KeystrokeRow :=
  sortByCreated (db.keystroke_data.filter (fun r => r.session_id == session_id))

/-- A historical session's sanitized dwell series. -/
noncomputable def histDwell (db : DB) (session_id : ℕ) : List ℝ :=
  (histRows db session_id).map (fun r => sanitizeDwell r.dwell_time)

/-- A historical session's sanitized flight series. -/
noncomputable def histFlight (db : DB) (session_id : ℕ) : List ℝ :=
  (histRows db session_id).map (fun r => sanitizeFlight r.flight_time)

/-- The historical_sessions CTE: sessions of the subject, other than the
current one, whose subject has at least one successful attempt (the join is
on aa.user_id = ks.user_id only), collapsed by DISTINCT ON (ks.id), ordered
by ks.id (the leading ORDER BY column), LIMIT 5. -/
def historicalCandidateIds (db : DB) (user_id session_id : ℕ) : List ℕ :=
  (sortedIds ((db.keystroke_sessions.filter (fun ks =>
      ks.user_id == user_id && ks.id != session_id &&
      db.auth_attempts.any (fun aa => aa.user_id == ks.user_id && aa.success))).map
    (fun ks => ks.id))).take 5

/-- The historical_keystrokes CTE: the candidate sessions whose own row count
equals the current pattern length (HAVING array_length(array_agg(...)) = n). -/
def selectedHistoricalSessions (db : DB) (user_id session_id n : ℕ) : List ℕ :=
  (historicalCandidateIds db user_id session_id).filter
    (fun h => (histRows db h).length == n)

/-- The aggregated historical_patterns array: each selected session's series
normalized; array_agg drops nothing here because the selected series always
have equal lengths, so normalize_keystroke_pattern never returns NULL. -/
noncomputable def historicalPatternsOf (db : DB) (user_id session_id : ℕ) :
    List (List (ℝ × ℝ)) :=
  ((selectedHistoricalSessions db user_id session_id
      (currentDwell db session_id).length).map
    (fun h => normalize_keystroke_pattern (histDwell db h) (histFlight db h))).filterMap id

/-- The current session's normalized pattern (a NULL pattern would behave as
an empty array in the comparison query, hence getD []). -/
noncomputable def currentPatternOf (db : DB) (session_id : ℕ) : List (ℝ × ℝ) :=
  (normalize_keystroke_pattern (currentDwell db session_id)
    (currentFlight db session_id)).getD []

/-- Per-comparison dwell similarity:
1 / (1 + sqrt(sum (c.dwell_z - h.dwell_z)^2 / pattern_length)). -/
noncomputable def dwellMatch (n : ℕ) (P H : List (ℝ × ℝ)) : ℝ :=
  1 / (1 + Real.sqrt (((P.zip H).map (fun q => (q.1.1 - q.2.1) ^ 2)).sum / (n : ℝ)))

/-- Per-comparison flight similarity. -/
noncomputable def flightMatch (n : ℕ) (P H : List (ℝ × ℝ)) : ℝ :=
  1 / (1 + Real.sqrt (((P.zip H).map (fun q => (q.1.2 - q.2.2) ^ 2)).sum / (n : ℝ)))

/-- Per-comparison joint similarity over both features, dividing by 2n. -/
noncomputable def totalMatch (n : ℕ) (P H : List (ℝ × ℝ)) : ℝ :=
  1 / (1 + Real.sqrt (((P.zip H).map
    (fun q => (q.1.1 - q.2.1) ^ 2 + (q.1.2 - q.2.2) ^ 2)).sum / (2 * (n : ℝ))))

/-- The keystroke_match_details record. -/
structure MatchDetails where
  dwell_time_match : ℝ
  flight_time_match : ℝ
  pattern_consistency : ℝ
  overall_confidence : ℝ


/-- Aggregation across historical comparisons: averages of the per-feature
similarities, pattern_consistency = COALESCE(stddev(total_match), 0) (NULL,
hence 0, with a single comparison), and
overall_confidence = avg(total_match) * (1 - pattern_consistency). -/
noncomputable def aggregate (n : ℕ) (P : List (ℝ × ℝ)) (Hs : List (List (ℝ × ℝ))) :
    MatchDetails :=
  let ts := Hs.map (fun H => totalMatch n P H)
  { dwell_time_match := listMean (Hs.map (fun H => dwellMatch n P H))
    flight_time_match := listMean (Hs.map (fun H => flightMatch n P H))
    pattern_consistency := (stddevSamp ts).getD 0
    overall_confidence := listMean ts * (1 - (stddevSamp ts).getD 0) }

/-- Final weighted match score:
(dwell*0.4 + flight*0.4 + consistency*0.2) * overall_confidence. -/
noncomputable def matchScoreOf (n : ℕ) (P : List (ℝ × ℝ)) (Hs : List (List (ℝ × ℝ))) : ℝ :=
  let md := aggregate n P Hs
  (md.dwell_time_match * 0.4 + md.flight_time_match * 0.4 +
    md.pattern_consistency * 0.2) * md.overall_confidence

/-- The recommendation values of the result JSON. -/
inductive Recommendation
  | accept
  | challenge
  | reject
deriving DecidableEq

/-- The CASE expression of the result JSON: accept when the score reaches the
threshold, challenge from 80 percent of the threshold up, reject otherwise. -/
noncomputable def recommend (match_score threshold : ℝ) : Recommendation :=
  if match_score ≥ threshold then .accept
  else if match_score ≥ threshold * 0.8 then .challenge
  else .reject

/-- The three JSON shapes verify_keystroke_pattern can return: the error
object (which still carries a match_score of 0 next to the error message),
the insufficient-history object (score 0.5, threshold, reason, no
recommendation), and the full result object. -/
inductive VerifyResult
  | err (match_score : ℝ) (msg : String)
  | insufficient (match_score threshold : ℝ) (reason : String)
  | outcome (match_score threshold : ℝ) (details : MatchDetails)
      (patterns_compared pattern_length : ℕ) (recommendation : Recommendation)

/-- verify_keystroke_pattern (latest migration).  Computes the adaptive
threshold, reads and sanitizes the current session, fails in-band on an empty
session, selects and normalizes historical sessions, returns the neutral 0.5
object when none are usable, and otherwise aggregates the pairwise
similarities into the scored result. -/
noncomputable def verify_keystroke_pattern (db : DB) (user_id session_id : ℕ)
    (now : ℤ) : VerifyResult :=
  let adaptive_threshold := calculate_adaptive_threshold db user_id now
  if (currentDwell db session_id).length = 0 then
    .err 0 "No valid keystroke data found for current session"
  else if (historicalPatternsOf db user_id session_id).length = 0 then
    .insufficient 0.5 adaptive_threshold
      "No historical patterns available for comparison"
  else
    let n := (currentDwell db session_id).length
    let Hs := historicalPatternsOf db user_id session_id
    let P := currentPatternOf db session_id
    let ms := matchScoreOf n P Hs
    .outcome ms adaptive_threshold (aggregate n P Hs) Hs.length n
      (recommend ms adaptive_threshold)

/-- The match_score field the LoginPage caller reads off the returned JSON,
whatever shape it has. -/
def jsonMatchScore : VerifyResult → ℝ
  | .err s _ => s
  | .insufficient s _ _ => s
  | .outcome s _ _ _ _ _ => s

/-- Where the LoginPage navigates after verification. -/
inductive LoginNav
  | dashboard
  | otp
deriving DecidableEq

/-- What the LoginPage does after the verify RPC returns. -/
inductive LoginAction
  | failure (msg : String)
  | proceed (recorded : AuthAttemptRow) (nav : LoginNav)

/-- The LoginPage handler (part_000): it throws only on an RPC-level error;
otherwise it reads match_score from the JSON (ignoring any in-band error
field), records an auth_attempts row with success = true and no metadata,
and navigates to the dashboard or the OTP page at the fixed 0.7 cut. -/
noncomputable def loginHandleVerification (user_id : ℕ) (rpc_failed : Bool)
    (r : VerifyResult) (t : ℤ) : LoginAction :=
  if rpc_failed then .failure "Failed to verify keystroke pattern"
  else
    let matchScore := jsonMatchScore r
    .proceed
      { user_id := user_id
        success := true
        keystroke_match := decide (matchScore ≥ 0.7)
        location_match := true
        attempted_at := t
        metadata_score := none }
      (if matchScore ≥ 0.7 then .dashboard else .otp)

/-- Modelled from the spec: the Pattern Normalizer as section 4.3 words it,
with the mean and standard deviation taken over the session's own dwell
series and, separately, its own flight series (rather than over the cross
join the SQL actually aggregates).  Used only to compare the spec's wording
against normalize_keystroke_pattern. -/
noncomputable def spec_normalize_pattern (dwell_times flight_times : List ℝ) :
    Option (List (ℝ × ℝ)) :=
  let d := validateVals dwell_times
  let f := validateVals flight_times
  if d.length ≠ f.length then none
  else
    let dwell_mean := listMean d
    let dwell_std := greatestWithFloor (stddevSamp d) (1 / 10000)
    let flight_mean := listMean f
    let flight_std := greatestWithFloor (stddevSamp f) (1 / 10000)
    some ((d.zip f).map (fun p =>
      ((p.1 - dwell_mean) / dwell_std, (p.2 - flight_mean) / flight_std)))

/-- Squared dwell-feature Euclidean distance between two aligned patterns. -/
noncomputable def dwellSqSum (P H : List (ℝ × ℝ)) : ℝ :=
  ((P.zip H).map (fun q => (q.1.1 - q.2.1) ^ 2)).sum

/-- Squared flight-feature Euclidean distance between two aligned patterns. -/
noncomputable def flightSqSum (P H : List (ℝ × ℝ)) : ℝ :=
  ((P.zip H).map (fun q => (q.1.2 - q.2.2) ^ 2)).sum

/-- Euclidean distance between two aligned normalized patterns, both features
jointly, as the monotonicity property of the spec measures it. -/
noncomputable def euclidJointDist (P H : List (ℝ × ℝ)) : ℝ :=
  Real.sqrt (((P.zip H).map
    (fun q => (q.1.1 - q.2.1) ^ 2 + (q.1.2 - q.2.2) ^ 2)).sum)

/-- Membership is preserved by the descending insertion step. -/
lemma mem_insertByAttemptedDesc {a x : AuthAttemptRow} {l : List AuthAttemptRow} :
    x ∈ insertByAttemptedDesc a l ↔ x = a ∨ x ∈ l := by
  induction l with
  | nil => simp [insertByAttemptedDesc]
  | cons b bs ih =>
      simp only [insertByAttemptedDesc]
      split
      · simp
      · simp [ih]
        tauto

/-- Sorting attempts by recency neither adds nor removes rows. -/
lemma mem_sortByAttemptedDesc {x : AuthAttemptRow} {l : List AuthAttemptRow} :
    x ∈ sortByAttemptedDesc l ↔ x ∈ l := by
  induction l with
  | nil => simp [sortByAttemptedDesc]
  | cons b bs ih =>
      simp only [sortByAttemptedDesc, List.foldr_cons] at ih ⊢
      rw [mem_insertByAttemptedDesc, ih, List.mem_cons]

/-- Membership in the ascending distinct-id insertion step. -/
lemma mem_insertIdAsc {a x : ℕ} {l : List ℕ} :
    x ∈ insertIdAsc a l ↔ x = a ∨ x ∈ l := by
  induction l with
  | nil => simp [insertIdAsc]
  | cons b bs ih =>
      simp only [insertIdAsc]
      split
      · simp
      · split
        · rename_i h1 h2
          subst h2
          simp only [List.mem_cons]
          tauto
        · simp [ih]
          tauto

/-- The distinct ascending id list has exactly the ids of the input. -/
lemma mem_sortedIds {x : ℕ} {l : List ℕ} : x ∈ sortedIds l ↔ x ∈ l := by
  induction l with
  | nil => simp [sortedIds]
  | cons b bs ih =>
      simp only [sortedIds, List.foldr_cons] at ih ⊢
      rw [mem_insertIdAsc, ih, List.mem_cons]

/-- The cross join has n times m rows. -/
lemma crossLeft_length (d f : List ℝ) :
    (crossLeft d f).length = d.length * f.length := by
  induction d with
  | nil => simp [crossLeft]
  | cons a d ih =>
      simp only [crossLeft, List.flatMap_cons, List.length_append,
        List.length_replicate, List.length_cons] at ih ⊢
      rw [ih]
      ring

/-- Mapping over the cross join acts on the left factor. -/
lemma crossLeft_map (g : ℝ → ℝ) (d f : List ℝ) :
    (crossLeft d f).map g = crossLeft (d.map g) f := by
  induction d with
  | nil => simp [crossLeft]
  | cons a d ih =>
      simp only [crossLeft, List.flatMap_cons, List.map_cons, List.map_append,
        List.map_replicate] at ih ⊢
      rw [ih]

/-- Sum over the cross join multiplies by the right factor's length. -/
lemma crossLeft_sum (d f : List ℝ) :
    (crossLeft d f).sum = f.length * d.sum := by
  induction d with
  | nil => simp [crossLeft]
  | cons a d ih =>
      simp only [crossLeft, List.flatMap_cons, List.sum_append, List.sum_cons,
        List.sum_replicate, nsmul_eq_mul] at ih ⊢
      rw [ih]
      ring

/-- The mean over the cross join is the mean of the left series. -/
lemma crossLeft_mean (d f : List ℝ) (hf : f.length ≠ 0) :
    listMean (crossLeft d f) = listMean d := by
  rcases eq_or_ne d.length 0 with hd | hd
  · rw [List.length_eq_zero] at hd
    subst hd
    simp [crossLeft, listMean]
  · have h1 : (d.length : ℝ) ≠ 0 := Nat.cast_ne_zero.mpr hd
    have h2 : (f.length : ℝ) ≠ 0 := Nat.cast_ne_zero.mpr hf
    unfold listMean
    rw [crossLeft_sum, crossLeft_length]
    push_cast
    field_simp
    ring

/-- Squared deviations over the cross join also scale by the length. -/
lemma crossLeft_sqDevSum (d f : List ℝ) (hf : f.length ≠ 0) :
    sqDevSum (crossLeft d f) = f.length * sqDevSum d := by
  unfold sqDevSum
  rw [crossLeft_mean d f hf, crossLeft_map, crossLeft_sum]

/-- Closed form of the sample standard deviation the SQL actually aggregates:
over the n*n cross-join rows it equals sqrt(n * sqDevSum / (n^2 - 1)), not
the standard deviation of the series itself. -/
lemma crossLeft_stddev (d f : List ℝ) (hlen : d.length = f.length)
    (h2 : 2 ≤ d.length) :
    stddevSamp (crossLeft d f) =
      some (Real.sqrt ((d.length * sqDevSum d) / ((d.length : ℝ) ^ 2 - 1))) := by
  unfold stddevSamp
  rw [crossLeft_length, crossLeft_sqDevSum d f (by omega)]
  rw [if_neg (by nlinarith [hlen ▸ h2])]
  congr 1
  rw [← hlen]
  push_cast
  ring_nf

/-- Validation is the identity on series already inside [0, 5000]. -/
lemma validateVals_id (xs : List ℝ) (h : ∀ x ∈ xs, 0 ≤ x ∧ x ≤ 5000) :
    validateVals xs = xs := by
  induction xs with
  | nil => simp [validateVals]
  | cons a l ih =>
      have ha := h a (by simp)
      simp only [validateVals, List.map_cons]
      rw [if_neg (by push_neg; constructor <;> linarith [ha.1, ha.2])]
      have := ih (fun x hx => h x (by simp [hx]))
      simpa [validateVals] using this

/-- A pattern zipped with itself makes every pointwise deviation vanish. -/
lemma sum_map_zip_self (g : (ℝ × ℝ) × (ℝ × ℝ) → ℝ) (hg : ∀ a, g (a, a) = 0)
    (P : List (ℝ × ℝ)) : ((P.zip P).map g).sum = 0 := by
  induction P with
  | nil => simp
  | cons a P ih => simp [List.zip_cons_cons, hg, ih]

/-- Comparing a pattern to itself gives dwell similarity exactly 1. -/
lemma dwellMatch_self (n : ℕ) (P : List (ℝ × ℝ)) : dwellMatch n P P = 1 := by
  unfold dwellMatch
  rw [sum_map_zip_self _ (fun a => by ring) P]
  simp

/-- Comparing a pattern to itself gives flight similarity exactly 1. -/
lemma flightMatch_self (n : ℕ) (P : List (ℝ × ℝ)) : flightMatch n P P = 1 := by
  unfold flightMatch
  rw [sum_map_zip_self _ (fun a => by ring) P]
  simp

/-- Comparing a pattern to itself gives joint similarity exactly 1. -/
lemma totalMatch_self (n : ℕ) (P : List (ℝ × ℝ)) : totalMatch n P P = 1 := by
  unfold totalMatch
  rw [sum_map_zip_self _ (fun a => by ring) P]
  simp

/-- With a single historical comparison the stddev aggregate is NULL, so
pattern_consistency collapses to 0 and confidence to the joint similarity. -/
lemma aggregate_singleton (n : ℕ) (P H : List (ℝ × ℝ)) :
    aggregate n P [H] =
      ⟨dwellMatch n P H, flightMatch n P H, 0, totalMatch n P H⟩ := by
  unfold aggregate
  simp [listMean, stddevSamp]

/-- Match score against a single historical pattern. -/
lemma matchScoreOf_singleton (n : ℕ) (P H : List (ℝ × ℝ)) :
    matchScoreOf n P [H] =
      (dwellMatch n P H * 0.4 + flightMatch n P H * 0.4) * totalMatch n P H := by
  unfold matchScoreOf
  rw [aggregate_singleton]
  norm_num

/-- A pattern scored against a single identical copy of itself earns 0.8,
not 1: the consistency term contributes 0 with weight 0.2. -/
lemma matchScoreOf_self_singleton (n : ℕ) (P : List (ℝ × ℝ)) :
    matchScoreOf n P [P] = 0.8 := by
  rw [matchScoreOf_singleton, dwellMatch_self, flightMatch_self, totalMatch_self]
  norm_num

/-- Closed form of normalize_keystroke_pattern on already-validated series of
equal length at least 2: each z-score divides by the cross-join standard
deviation sqrt(n * sqDevSum / (n^2 - 1)), floored at 1e-4. -/
lemma normalize_closed_form (d f : List ℝ) (hlen : d.length = f.length)
    (h2 : 2 ≤ d.length)
    (hd : ∀ x ∈ d, 0 ≤ x ∧ x ≤ 5000) (hf : ∀ x ∈ f, 0 ≤ x ∧ x ≤ 5000) :
    normalize_keystroke_pattern d f =
      some ((d.zip f).map (fun p =>
        ((p.1 - listMean d) /
            max (Real.sqrt ((d.length * sqDevSum d) / ((d.length : ℝ) ^ 2 - 1)))
              (1 / 10000),
         (p.2 - listMean f) /
            max (Real.sqrt ((f.length * sqDevSum f) / ((f.length : ℝ) ^ 2 - 1)))
              (1 / 10000)))) := by
  unfold normalize_keystroke_pattern
  rw [validateVals_id d hd, validateVals_id f hf]
  rw [if_neg (by omega)]
  rw [crossLeft_mean d f (by omega), crossLeft_mean f d (by omega),
    crossLeft_stddev d f hlen h2, crossLeft_stddev f d hlen.symm (hlen ▸ h2)]
  rfl

/-- On a list whose members are all equal, every member is the mean. -/
lemma const_eq_mean (d : List ℝ) (hconst : ∀ x ∈ d, ∀ y ∈ d, x = y) :
    ∀ x ∈ d, x = listMean d := by
  intro x hx
  have hall : ∀ y ∈ d, y = x := fun y hy => hconst y hy x hx
  have hsum : d.sum = d.length • x := List.sum_eq_card_nsmul d x hall
  have hne : d.length ≠ 0 := by
    intro h0
    rw [List.length_eq_zero] at h0
    subst h0
    simp at hx
  unfold listMean
  rw [hsum, nsmul_eq_mul]
  field_simp

/-- A constant series has zero squared deviation. -/
lemma const_sqDevSum (d : List ℝ) (hconst : ∀ x ∈ d, ∀ y ∈ d, x = y) :
    sqDevSum d = 0 := by
  unfold sqDevSum
  apply List.sum_eq_zero
  intro y hy
  obtain ⟨x, hx, rfl⟩ := List.mem_map.mp hy
  rw [← const_eq_mean d hconst x hx]
  ring

/-- Nonnegativity of the squared-distance sums. -/
lemma dwellSqSum_nonneg (P H : List (ℝ × ℝ)) : 0 ≤ dwellSqSum P H := by
  apply List.sum_nonneg
  intro y hy
  obtain ⟨x, hx, rfl⟩ := List.mem_map.mp hy
  positivity

/-- Nonnegativity of the flight squared-distance sum. -/
lemma flightSqSum_nonneg (P H : List (ℝ × ℝ)) : 0 ≤ flightSqSum P H := by
  apply List.sum_nonneg
  intro y hy
  obtain ⟨x, hx, rfl⟩ := List.mem_map.mp hy
  positivity

/-- The inverse-distance similarity shape is nonnegative. -/
lemma simExpr_nonneg (x : ℝ) : 0 ≤ 1 / (1 + Real.sqrt x) := by positivity

/-- The similarity shape is antitone in the squared distance. -/
lemma simExpr_antitone {S T : ℝ} (k : ℝ) (hST : S ≤ T) (hk : 0 ≤ k) :
    1 / (1 + Real.sqrt (T / k)) ≤ 1 / (1 + Real.sqrt (S / k)) := by
  have hdiv : S / k ≤ T / k := by
    rcases eq_or_lt_of_le hk with h0 | h0
    · rw [← h0]
      simp
    · exact (div_le_div_iff_of_pos_right h0).mpr hST
  have hs := Real.sqrt_le_sqrt hdiv
  apply one_div_le_one_div_of_le
  · positivity
  · linarith

/-- Splitting a sum of pointwise added maps. -/
lemma sum_map_add (l : List ((ℝ × ℝ) × (ℝ × ℝ))) (g h : (ℝ × ℝ) × (ℝ × ℝ) → ℝ) :
    (l.map (fun q => g q + h q)).sum = (l.map g).sum + (l.map h).sum := by
  induction l with
  | nil => simp
  | cons a l ih =>
      simp [ih]
      ring

/-- Dwell similarity in terms of the squared dwell distance. -/
lemma dwellMatch_eq (n : ℕ) (P H : List (ℝ × ℝ)) :
    dwellMatch n P H = 1 / (1 + Real.sqrt (dwellSqSum P H / (n : ℝ))) := rfl

/-- Flight similarity in terms of the squared flight distance. -/
lemma flightMatch_eq (n : ℕ) (P H : List (ℝ × ℝ)) :
    flightMatch n P H = 1 / (1 + Real.sqrt (flightSqSum P H / (n : ℝ))) := rfl

/-- Joint similarity in terms of the two per-feature squared distances. -/
lemma totalMatch_eq (n : ℕ) (P H : List (ℝ × ℝ)) :
    totalMatch n P H =
      1 / (1 + Real.sqrt ((dwellSqSum P H + flightSqSum P H) / (2 * (n : ℝ)))) := by
  unfold totalMatch dwellSqSum flightSqSum
  rw [sum_map_add]

/-- The current dwell and flight series always have the same length: both
project the same filtered row list. -/
lemma currentSeries_length (db : DB) (sid : ℕ) :
    (currentDwell db sid).length = (currentFlight db sid).length := by
  simp [currentDwell, currentFlight]

/-- Normalization of the current session never returns NULL. -/
lemma normalize_current_isSome (db : DB) (sid : ℕ) :
    (normalize_keystroke_pattern (currentDwell db sid)
      (currentFlight db sid)).isSome = true := by
  unfold normalize_keystroke_pattern
  rw [if_neg]
  · rfl
  · simp [validateVals, currentSeries_length db sid]

/-- The error branch of verify_keystroke_pattern. -/
lemma verify_empty_session (db : DB) (uid sid : ℕ) (now : ℤ)
    (h : (currentDwell db sid).length = 0) :
    verify_keystroke_pattern db uid sid now =
      .err 0 "No valid keystroke data found for current session" := by
  unfold verify_keystroke_pattern
  rw [if_pos h]

/-- The insufficient-history branch of verify_keystroke_pattern. -/
lemma verify_no_history (db : DB) (uid sid : ℕ) (now : ℤ)
    (h1 : (currentDwell db sid).length ≠ 0)
    (h2 : historicalPatternsOf db uid sid = []) :
    verify_keystroke_pattern db uid sid now =
      .insufficient 0.5 (calculate_adaptive_threshold db uid now)
        "No historical patterns available for comparison" := by
  unfold verify_keystroke_pattern
  rw [if_neg h1, if_pos (by rw [h2]; rfl)]

/-- The scored branch of verify_keystroke_pattern. -/
lemma verify_scored (db : DB) (uid sid : ℕ) (now : ℤ)
    (h1 : (currentDwell db sid).length ≠ 0)
    (h2 : (historicalPatternsOf db uid sid).length ≠ 0) :
    verify_keystroke_pattern db uid sid now =
      .outcome
        (matchScoreOf (currentDwell db sid).length (currentPatternOf db sid)
          (historicalPatternsOf db uid sid))
        (calculate_adaptive_threshold db uid now)
        (aggregate (currentDwell db sid).length (currentPatternOf db sid)
          (historicalPatternsOf db uid sid))
        (historicalPatternsOf db uid sid).length
        (currentDwell db sid).length
        (recommend
          (matchScoreOf (currentDwell db sid).length (currentPatternOf db sid)
            (historicalPatternsOf db uid sid))
          (calculate_adaptive_threshold db uid now)) := by
  unfold verify_keystroke_pattern
  rw [if_neg h1, if_neg h2]

/-- The LoginPage flow on an in-band error object: no propagation, an
auth_attempts row with success = true and no metadata is recorded, and the
user is sent to the OTP page because the carried score 0 is below 0.7. -/
lemma login_on_error (uid : ℕ) (msg : String) (t : ℤ) :
    loginHandleVerification uid false (.err 0 msg) t =
      .proceed ⟨uid, true, false, true, t, none⟩ .otp := by
  unfold loginHandleVerification jsonMatchScore
  norm_num

/-- The empty database snapshot. -/
def emptyDB : DB := ⟨[], [], []⟩

/-- Scenario E database: three successful attempts of subject 1 inside the
window, carrying match scores 0.7, 0.8 and 0.9 in their metadata. -/
noncomputable def scenarioEDB : DB :=
  ⟨[], [],
    [⟨1, true, true, true, 1, some 0.7⟩,
     ⟨1, true, true, true, 2, some 0.8⟩,
     ⟨1, true, true, true, 3, some 0.9⟩]⟩

/-- Cap database: eleven recent successful attempts; the ten newest carry
score 0.5, the oldest carries the outlier 50 and must fall to the cap. -/
noncomputable def capDB : DB :=
  ⟨[], [],
    [⟨1, true, true, true, 12, some 0.5⟩,
     ⟨1, true, true, true, 11, some 0.5⟩,
     ⟨1, true, true, true, 10, some 0.5⟩,
     ⟨1, true, true, true, 9, some 0.5⟩,
     ⟨1, true, true, true, 8, some 0.5⟩,
     ⟨1, true, true, true, 7, some 0.5⟩,
     ⟨1, true, true, true, 6, some 0.5⟩,
     ⟨1, true, true, true, 5, some 0.5⟩,
     ⟨1, true, true, true, 4, some 0.5⟩,
     ⟨1, true, true, true, 3, some 0.5⟩,
     ⟨1, true, true, true, 2, some 50⟩]⟩

/-- A database whose only attempt row is shaped like the LoginPage insert:
success = true, no metadata. -/
noncomputable def loginOnlyDB : DB :=
  ⟨[], [], [⟨1, true, true, true, 0, none⟩]⟩

/-- C2: for every match_score and threshold the recommendation is accept
exactly when match_score reaches the threshold, challenge exactly on
[0.8 * threshold, threshold), and reject exactly below 0.8 * threshold. -/
theorem claim_C2_decision_engine (ms t : ℝ) :
    (recommend ms t = .accept ↔ t ≤ ms)
  ∧ (recommend ms t = .challenge ↔ t * 0.8 ≤ ms ∧ ms < t)
  ∧ (recommend ms t = .reject ↔ ms < t * 0.8 ∧ ms < t) := by
  unfold recommend
  split_ifs with h1 h2
  · refine ⟨iff_of_true rfl h1, ?_, ?_⟩
    · exact iff_of_false (by simp) (fun hc => absurd hc.2 (by push_neg; exact h1))
    · exact iff_of_false (by simp) (fun hc => absurd hc.2 (by push_neg; exact h1))
  · push_neg at h1
    refine ⟨?_, iff_of_true rfl ⟨h2, h1⟩, ?_⟩
    · exact iff_of_false (by simp) (by push_neg; exact h1)
    · exact iff_of_false (by simp) (fun hc => absurd hc.1 (by push_neg; exact h2))
  · push_neg at h1 h2
    refine ⟨?_, ?_, iff_of_true rfl ⟨h2, h1⟩⟩
    · exact iff_of_false (by simp) (by push_neg; exact h1)
    · exact iff_of_false (by simp) (fun hc => absurd hc.1 (by push_neg; exact h2))

/-- C7: the validator keeps length, lands every entry in [0, 5000], maps a
NULL, negative or over-5000 entry to 0 and keeps every other entry
unchanged. -/
theorem claim_C7_validator (arr : List (Option ℝ)) :
    (validate_keystroke_array arr).length = arr.length
  ∧ (∀ x ∈ validate_keystroke_array arr, 0 ≤ x ∧ x ≤ 5000)
  ∧ (∀ i : ℕ, ∀ o : Option ℝ, arr[i]? = some o →
      (validate_keystroke_array arr)[i]? =
        some (match o with
          | none => 0
          | some v => if v < 0 ∨ 5000 < v then 0 else v))
  ∧ (∀ i : ℕ, ∀ v : ℝ, arr[i]? = some (some v) → 0 ≤ v → v ≤ 5000 →
      (validate_keystroke_array arr)[i]? = some v) := by
  refine ⟨by simp [validate_keystroke_array], ?_, ?_, ?_⟩
  · intro x hx
    obtain ⟨o, ho, rfl⟩ := List.mem_map.mp hx
    match o with
    | none => norm_num
    | some v =>
        dsimp only
        split_ifs with h
        · norm_num
        · push_neg at h
          exact h
  · intro i o ho
    unfold validate_keystroke_array
    rw [List.getElem?_map, ho]
    rfl
  · intro i v ho h0 h5
    unfold validate_keystroke_array
    rw [List.getElem?_map, ho]
    show some (if v < 0 ∨ 5000 < v then (0 : ℝ) else v) = some v
    rw [if_neg (by push_neg; exact ⟨h0, h5⟩)]

/-- C7 witness: a concrete array with a NULL, an overflow, a negative and a
valid entry; the valid entry 42 passes through unchanged. -/
theorem claim_C7_witness :
    (0 : ℝ) ≤ 42 ∧ (42 : ℝ) ≤ 5000 ∧
    (validate_keystroke_array [some 6000, none, some 42, some (-3)])[2]? = some 42 := by
  refine ⟨by norm_num, by norm_num, ?_⟩
  exact (claim_C7_validator [some 6000, none, some 42, some (-3)]).2.2.2 2 42 rfl
    (by norm_num) (by norm_num)

/-- C5: the adaptive threshold is the fixed 0.7 when no attempt of the
subject is successful and inside the window, is 0.8 times the mean of the
recent qualifying scores otherwise, yields 0.64 on Scenario E's scores
[0.9, 0.8, 0.7], and honours the cap of 10 most recent attempts. -/
theorem claim_C5_adaptive_threshold :
    (∀ (db : DB) (uid : ℕ) (now : ℤ),
        (∀ aa ∈ db.auth_attempts,
          ¬ (aa.user_id = uid ∧ aa.success = true ∧ now - 604800 < aa.attempted_at)) →
        calculate_adaptive_threshold db uid now = 0.7)
  ∧ (∀ (db : DB) (uid : ℕ) (now : ℤ),
        thresholdScores db uid now ≠ [] →
        calculate_adaptive_threshold db uid now =
          0.8 * listMean (thresholdScores db uid now))
  ∧ calculate_adaptive_threshold scenarioEDB 1 4 = 0.64
  ∧ calculate_adaptive_threshold capDB 1 13 = 0.4 := by
  refine ⟨?_, ?_, ?_, ?_⟩
  · intro db uid now h
    have hfil : db.auth_attempts.filter (qualifiesForThreshold uid now) = [] := by
      rw [List.filter_eq_nil_iff]
      intro aa ha
      have := h aa ha
      simp only [qualifiesForThreshold, Bool.and_eq_true, beq_iff_eq,
        decide_eq_true_eq, not_and] at this ⊢
      tauto
    unfold calculate_adaptive_threshold thresholdScores
    rw [hfil]
    rfl
  · intro db uid now h
    unfold calculate_adaptive_threshold
    rw [if_neg (by simpa [List.length_eq_zero] using h)]
    unfold listMean
    ring
  · norm_num [calculate_adaptive_threshold, thresholdScores, scenarioEDB,
      qualifiesForThreshold, sortByAttemptedDesc, insertByAttemptedDesc,
      List.filterMap_cons]
  · norm_num [calculate_adaptive_threshold, thresholdScores, capDB,
      qualifiesForThreshold, sortByAttemptedDesc, insertByAttemptedDesc,
      List.filterMap_cons]

/-- C5 witness: with no attempts at all the threshold is the default 0.7. -/
theorem claim_C5_witness :
    calculate_adaptive_threshold emptyDB 1 0 = 0.7 :=
  claim_C5_adaptive_threshold.1 emptyDB 1 0 (by intro aa ha; simp [emptyDB] at ha)

/-- C10: every attempt row the LoginPage flow records has success = true and
no metadata match_score, and over any attempts table made of such rows the
adaptive threshold is the fixed default 0.7. -/
theorem claim_C10_login_attempts :
    (∀ (uid : ℕ) (rpc : Bool) (r : VerifyResult) (t : ℤ)
        (att : AuthAttemptRow) (nav : LoginNav),
        loginHandleVerification uid rpc r t = .proceed att nav →
        att.success = true ∧ att.metadata_score = none)
  ∧ (∀ (db : DB) (uid : ℕ) (now : ℤ),
        (∀ aa ∈ db.auth_attempts, aa.metadata_score = none) →
        calculate_adaptive_threshold db uid now = 0.7) := by
  constructor
  · intro uid rpc r t att nav h
    cases rpc with
    | true =>
        unfold loginHandleVerification at h
        rw [if_pos rfl] at h
        exact absurd h (by simp)
    | false =>
        unfold loginHandleVerification at h
        rw [if_neg (by simp)] at h
        rw [LoginAction.proceed.injEq] at h
        obtain ⟨h1, h2⟩ := h
        subst h1
        exact ⟨rfl, rfl⟩
  · intro db uid now h
    have hscores : thresholdScores db uid now = [] := by
      unfold thresholdScores
      rw [List.filterMap_eq_nil_iff]
      intro aa ha
      apply h
      exact List.mem_of_mem_filter
        (mem_sortByAttemptedDesc.mp (List.mem_of_mem_take ha))
    unfold calculate_adaptive_threshold
    rw [hscores]
    rfl

/-- C10 witness: one LoginPage-shaped attempt row on file still leaves the
threshold at 0.7. -/
theorem claim_C10_witness :
    calculate_adaptive_threshold loginOnlyDB 1 0 = 0.7 :=
  claim_C10_login_attempts.2 loginOnlyDB 1 0
    (by
      intro aa ha
      simp [loginOnlyDB] at ha
      subst ha
      rfl)

/-- C8 counterexample: one historical pattern at the origin; the current
pattern (5, 5) and the alternative (1, 7) lie at the same joint Euclidean
distance sqrt 50, yet the alternative scores strictly higher, because
splitting the distance unevenly across the two features raises the weighted
per-feature similarities.  This refutes monotonicity in the joint distance. -/
theorem claim_C8_counterexample :
    euclidJointDist [((5 : ℝ), 5)] [((0 : ℝ), 0)] ≤
      euclidJointDist [((1 : ℝ), 7)] [((0 : ℝ), 0)]
    ∧ matchScoreOf 1 [((5 : ℝ), 5)] [[((0 : ℝ), 0)]] <
        matchScoreOf 1 [((1 : ℝ), 7)] [[((0 : ℝ), 0)]] := by
  have h25 : Real.sqrt 25 = 5 := by
    rw [show (25 : ℝ) = 5 ^ 2 by norm_num]
    exact Real.sqrt_sq (by norm_num)
  have h1 : Real.sqrt 1 = 1 := Real.sqrt_one
  have h49 : Real.sqrt 49 = 7 := by
    rw [show (49 : ℝ) = 7 ^ 2 by norm_num]
    exact Real.sqrt_sq (by norm_num)
  constructor
  · apply le_of_eq
    unfold euclidJointDist
    norm_num
  · rw [matchScoreOf_singleton, matchScoreOf_singleton]
    unfold dwellMatch flightMatch totalMatch
    norm_num [h25, h1, h49]

/-- C8 amended: against a single historical pattern, if the alternative
current pattern is at least as far in the dwell-feature squared distance and
in the flight-feature squared distance, then its match score is not larger.
The original claim, with only the joint distance controlled, is refuted by
claim_C8_counterexample. -/
theorem claim_C8_amended (n : ℕ) (P Q H : List (ℝ × ℝ))
    (hdw : dwellSqSum P H ≤ dwellSqSum Q H)
    (hfl : flightSqSum P H ≤ flightSqSum Q H) :
    matchScoreOf n Q [H] ≤ matchScoreOf n P [H] := by
  rw [matchScoreOf_singleton, matchScoreOf_singleton]
  have hd : dwellMatch n Q H ≤ dwellMatch n P H := by
    rw [dwellMatch_eq, dwellMatch_eq]
    exact simExpr_antitone (n : ℝ) hdw (Nat.cast_nonneg n)
  have hf : flightMatch n Q H ≤ flightMatch n P H := by
    rw [flightMatch_eq, flightMatch_eq]
    exact simExpr_antitone (n : ℝ) hfl (Nat.cast_nonneg n)
  have ht : totalMatch n Q H ≤ totalMatch n P H := by
    rw [totalMatch_eq, totalMatch_eq]
    exact simExpr_antitone (2 * (n : ℝ)) (by linarith) (by positivity)
  have hdQ : 0 ≤ dwellMatch n Q H := by
    rw [dwellMatch_eq]
    exact simExpr_nonneg _
  have hfQ : 0 ≤ flightMatch n Q H := by
    rw [flightMatch_eq]
    exact simExpr_nonneg _
  have htQ : 0 ≤ totalMatch n Q H := by
    rw [totalMatch_eq]
    exact simExpr_nonneg _
  have hdP : 0 ≤ dwellMatch n P H := by
    rw [dwellMatch_eq]
    exact simExpr_nonneg _
  have hfP : 0 ≤ flightMatch n P H := by
    rw [flightMatch_eq]
    exact simExpr_nonneg _
  apply mul_le_mul (by linarith) ht htQ (by linarith)

/-- C8 witness for the amended statement: moving from the origin pattern to
(1, 7) increases both per-feature squared distances from the historical
origin pattern, and the score does not increase. -/
theorem claim_C8_witness :
    dwellSqSum [((0 : ℝ), 0)] [((0 : ℝ), 0)] ≤ dwellSqSum [((1 : ℝ), 7)] [((0 : ℝ), 0)]
    ∧ flightSqSum [((0 : ℝ), 0)] [((0 : ℝ), 0)] ≤ flightSqSum [((1 : ℝ), 7)] [((0 : ℝ), 0)]
    ∧ matchScoreOf 1 [((1 : ℝ), 7)] [[((0 : ℝ), 0)]] ≤
        matchScoreOf 1 [((0 : ℝ), 0)] [[((0 : ℝ), 0)]] := by
  refine ⟨by norm_num [dwellSqSum], by norm_num [flightSqSum], ?_⟩
  exact claim_C8_amended 1 [((0 : ℝ), 0)] [((1 : ℝ), 7)] [((0 : ℝ), 0)]
    (by norm_num [dwellSqSum]) (by norm_num [flightSqSum])

/-- C6 counterexample: on the validated series dwell = [0, 2], flight =
[0, 0], the code divides by the cross-join standard deviation sqrt(4/3),
while the spec's z-score formula divides by the series' own standard
deviation sqrt 2, so the produced patterns differ. -/
theorem claim_C6_counterexample :
    normalize_keystroke_pattern [(0 : ℝ), 2] [(0 : ℝ), 0] ≠
      spec_normalize_pattern [(0 : ℝ), 2] [(0 : ℝ), 0] := by
  have hm1 : listMean [(0 : ℝ), 2] = 1 := by norm_num [listMean]
  have hm2 : listMean [(0 : ℝ), 0] = 0 := by norm_num [listMean]
  have hs1 : sqDevSum [(0 : ℝ), 2] = 2 := by
    rw [sqDevSum, hm1]
    norm_num
  have hs2 : sqDevSum [(0 : ℝ), 0] = 0 := by
    rw [sqDevSum, hm2]
    norm_num
  have hfloor43 : (1 / 10000 : ℝ) ≤ Real.sqrt (4 / 3) := by
    have h := Real.sqrt_le_sqrt (show ((1 : ℝ) / 10000) ^ 2 ≤ 4 / 3 by norm_num)
    rwa [Real.sqrt_sq (by norm_num)] at h
  have hfloor2 : (1 / 10000 : ℝ) ≤ Real.sqrt 2 := by
    have h := Real.sqrt_le_sqrt (show ((1 : ℝ) / 10000) ^ 2 ≤ 2 by norm_num)
    rwa [Real.sqrt_sq (by norm_num)] at h
  have hcode : normalize_keystroke_pattern [(0 : ℝ), 2] [(0 : ℝ), 0] =
      some [(-1 / Real.sqrt (4 / 3), 0), (1 / Real.sqrt (4 / 3), 0)] := by
    rw [normalize_closed_form [(0 : ℝ), 2] [(0 : ℝ), 0] rfl (by norm_num)
      (by intro x hx; fin_cases hx <;> norm_num)
      (by intro x hx; fin_cases hx <;> norm_num)]
    simp only [List.zip_cons_cons, List.zip_nil_right, List.map_cons, List.map_nil]
    rw [hm1, hm2, hs1, hs2]
    have hfloor43b : (1 / 10000 : ℝ) ≤ Real.sqrt 4 / Real.sqrt 3 := by
      rw [← Real.sqrt_div (by norm_num : (0 : ℝ) ≤ 4)]
      exact hfloor43
    norm_num [max_eq_left hfloor43b, inv_div]
  have hspec : spec_normalize_pattern [(0 : ℝ), 2] [(0 : ℝ), 0] =
      some [(-1 / Real.sqrt 2, 0), (1 / Real.sqrt 2, 0)] := by
    unfold spec_normalize_pattern
    rw [validateVals_id _ (by intro x hx; fin_cases hx <;> norm_num),
      validateVals_id _ (by intro x hx; fin_cases hx <;> norm_num)]
    rw [if_neg (by simp)]
    simp only [stddevSamp, List.length_cons, List.length_nil]
    rw [hm1, hm2, hs1, hs2]
    norm_num [greatestWithFloor, max_eq_left hfloor2]
  intro heq
  rw [hcode, hspec] at heq
  simp only [Option.some.injEq, List.cons.injEq, Prod.mk.injEq] at heq
  have hlt : Real.sqrt (4 / 3) < Real.sqrt 2 := by
    apply Real.sqrt_lt_sqrt (by norm_num) (by norm_num)
  have hpos : 0 < Real.sqrt (4 / 3) := Real.sqrt_pos.mpr (by norm_num)
  have hne : -1 / Real.sqrt (4 / 3) ≠ -1 / Real.sqrt 2 := by
    have h1 : 1 / Real.sqrt 2 < 1 / Real.sqrt (4 / 3) :=
      one_div_lt_one_div_of_lt hpos hlt
    intro habs
    rw [neg_div, neg_div, neg_inj] at habs
    rw [habs] at h1
    exact lt_irrefl _ h1
  exact hne heq.1.1

/-- C6 amended: the Pattern Normalizer does z-score by index, but the divisor
is max(s, 1e-4) where s is the sample standard deviation over the n*n rows of
the SQL cross join, that is sqrt(n * sqDevSum / (n^2 - 1)) for n >= 2 — not
the standard deviation of the series itself; a constant dwell series still
yields all-zero dwell z-scores (the deviation is 0, the floor 1e-4 divides a
zero numerator). -/
theorem claim_C6_amended (d f : List ℝ) (hlen : d.length = f.length)
    (h2 : 2 ≤ d.length)
    (hd : ∀ x ∈ d, 0 ≤ x ∧ x ≤ 5000) (hf : ∀ x ∈ f, 0 ≤ x ∧ x ≤ 5000) :
    normalize_keystroke_pattern d f =
      some ((d.zip f).map (fun p =>
        ((p.1 - listMean d) /
            max (Real.sqrt ((d.length * sqDevSum d) / ((d.length : ℝ) ^ 2 - 1)))
              (1 / 10000),
         (p.2 - listMean f) /
            max (Real.sqrt ((f.length * sqDevSum f) / ((f.length : ℝ) ^ 2 - 1)))
              (1 / 10000))))
    ∧ ((∀ x ∈ d, ∀ y ∈ d, x = y) →
        ∀ p ∈ (normalize_keystroke_pattern d f).getD [], p.1 = 0) := by
  have hform := normalize_closed_form d f hlen h2 hd hf
  refine ⟨hform, ?_⟩
  intro hconst p hp
  rw [hform] at hp
  simp only [Option.getD_some] at hp
  obtain ⟨q, hq, rfl⟩ := List.mem_map.mp hp
  have hq1 : q.1 ∈ d := (List.of_mem_zip hq).1
  have hz : q.1 - listMean d = 0 := by
    rw [← const_eq_mean d hconst q.1 hq1]
    ring
  dsimp only
  rw [hz, zero_div]

/-- C6 witness: the amended closed form on the concrete series dwell = [0, 2],
flight = [1, 3]. -/
theorem claim_C6_witness :
    normalize_keystroke_pattern [(0 : ℝ), 2] [(1 : ℝ), 3] =
      some ((([(0 : ℝ), 2]).zip [(1 : ℝ), 3]).map (fun p =>
        ((p.1 - listMean [(0 : ℝ), 2]) /
            max (Real.sqrt ((([(0 : ℝ), 2] : List ℝ).length * sqDevSum [(0 : ℝ), 2]) /
              ((([(0 : ℝ), 2] : List ℝ).length : ℝ) ^ 2 - 1))) (1 / 10000),
         (p.2 - listMean [(1 : ℝ), 3]) /
            max (Real.sqrt ((([(1 : ℝ), 3] : List ℝ).length * sqDevSum [(1 : ℝ), 3]) /
              ((([(1 : ℝ), 3] : List ℝ).length : ℝ) ^ 2 - 1))) (1 / 10000)))) :=
  (claim_C6_amended [(0 : ℝ), 2] [(1 : ℝ), 3] rfl (by norm_num)
    (by intro x hx; fin_cases hx <;> norm_num)
    (by intro x hx; fin_cases hx <;> norm_num)).1

/-- The accept case of the decision CASE expression, as a reusable fact. -/
lemma recommend_accept_iff (ms t : ℝ) : recommend ms t = .accept ↔ t ≤ ms := by
  unfold recommend
  split_ifs with h1 h2
  · exact iff_of_true rfl h1
  · exact iff_of_false (by simp) (by push_neg at h1 ⊢; exact h1)
  · exact iff_of_false (by simp) (by push_neg at h1 ⊢; exact h1)

/-- A database holding one session of subject 1 with no keystroke rows. -/
def dbEmptySession : DB := ⟨[], [⟨100, 1⟩], []⟩

/-- A subject's first-ever check: one session with one keystroke row, no
attempts, no other session. -/
noncomputable def dbFirstCheck : DB :=
  ⟨[⟨100, 0, some 5, some 5⟩], [⟨100, 1⟩], []⟩

/-- C3 amended: on a session with zero (valid) keystroke rows, verify returns
the in-band error object, which still carries match_score = 0 next to the
error message; the LoginPage caller does not propagate this in-band failure —
it records a success = true attempt without metadata and navigates to the OTP
page, because the carried score 0 is below 0.7. -/
theorem claim_C3_amended (db : DB) (uid sid : ℕ) (now t : ℤ)
    (h : (currentDwell db sid).length = 0) :
    verify_keystroke_pattern db uid sid now =
      .err 0 "No valid keystroke data found for current session"
    ∧ loginHandleVerification uid false (verify_keystroke_pattern db uid sid now) t =
        .proceed ⟨uid, true, false, true, t, none⟩ .otp := by
  have hv := verify_empty_session db uid sid now h
  exact ⟨hv, by rw [hv]; exact login_on_error uid _ t⟩

/-- C3 counterexample to the claim as stated: for the concrete empty session,
verify's return still contains a match_score (0), and the caller proceeds
(records an attempt and navigates) instead of propagating a failure. -/
theorem claim_C3_counterexample :
    verify_keystroke_pattern dbEmptySession 1 100 0 =
      .err 0 "No valid keystroke data found for current session"
    ∧ jsonMatchScore (verify_keystroke_pattern dbEmptySession 1 100 0) = 0
    ∧ loginHandleVerification 1 false (verify_keystroke_pattern dbEmptySession 1 100 0) 5 =
        .proceed ⟨1, true, false, true, 5, none⟩ .otp := by
  have h : (currentDwell dbEmptySession 100).length = 0 := by
    simp [currentDwell, currentRows, dbEmptySession, sortByCreated]
  have hv := verify_empty_session dbEmptySession 1 100 0 h
  exact ⟨hv, by rw [hv]; rfl, by rw [hv]; exact login_on_error 1 _ 5⟩

/-- C3 witness for the amended statement, at the concrete empty session. -/
theorem claim_C3_witness :
    verify_keystroke_pattern dbEmptySession 2 100 0 =
      .err 0 "No valid keystroke data found for current session"
    ∧ loginHandleVerification 2 false (verify_keystroke_pattern dbEmptySession 2 100 0) 9 =
        .proceed ⟨2, true, false, true, 9, none⟩ .otp :=
  claim_C3_amended dbEmptySession 2 100 0 9
    (by simp [currentDwell, currentRows, dbEmptySession, sortByCreated])

/-- C9: with a nonempty current session and no usable historical patterns,
verify returns the degraded-but-successful neutral object: score 0.5, the
adaptive threshold, and the insufficient-history reason — not an error — and
the decision rule at score 0.5 against the default threshold 0.7 is reject. -/
theorem claim_C9_insufficient_history (db : DB) (uid sid : ℕ) (now : ℤ)
    (h1 : (currentDwell db sid).length ≠ 0)
    (h2 : historicalPatternsOf db uid sid = []) :
    verify_keystroke_pattern db uid sid now =
      .insufficient 0.5 (calculate_adaptive_threshold db uid now)
        "No historical patterns available for comparison"
    ∧ recommend 0.5 0.7 = .reject := by
  refine ⟨verify_no_history db uid sid now h1 h2, ?_⟩
  unfold recommend
  rw [if_neg (by norm_num), if_neg (by norm_num)]

/-- C9 witness: a first-ever check (no attempts, no other sessions). -/
theorem claim_C9_witness :
    verify_keystroke_pattern dbFirstCheck 1 100 0 =
      .insufficient 0.5 (calculate_adaptive_threshold dbFirstCheck 1 0)
        "No historical patterns available for comparison"
    ∧ recommend 0.5 0.7 = .reject :=
  claim_C9_insufficient_history dbFirstCheck 1 100 0
    (by simp [currentDwell, currentRows, dbFirstCheck, sortByCreated, insertByCreated])
    (by simp [historicalPatternsOf, selectedHistoricalSessions,
      historicalCandidateIds, dbFirstCheck, sortedIds])

/-- When the single selected historical session carries exactly the current
session's sanitized series, every per-comparison similarity is 1, the
consistency term is 0 (stddev over one comparison is NULL), confidence is 1,
and the final score is (0.4 + 0.4 + 0.2 * 0) * 1 = 0.8. -/
lemma verify_single_identical (db : DB) (uid sid hist : ℕ) (now : ℤ)
    (hne : (currentDwell db sid).length ≠ 0)
    (hsel : selectedHistoricalSessions db uid sid (currentDwell db sid).length = [hist])
    (hd : histDwell db hist = currentDwell db sid)
    (hf : histFlight db hist = currentFlight db sid) :
    verify_keystroke_pattern db uid sid now =
      .outcome 0.8 (calculate_adaptive_threshold db uid now) ⟨1, 1, 0, 1⟩ 1
        (currentDwell db sid).length
        (recommend 0.8 (calculate_adaptive_threshold db uid now)) := by
  obtain ⟨Q, hQ⟩ := Option.isSome_iff_exists.mp (normalize_current_isSome db sid)
  have hcur : currentPatternOf db sid = Q := by
    unfold currentPatternOf
    rw [hQ]
    rfl
  have hhist : historicalPatternsOf db uid sid = [Q] := by
    unfold historicalPatternsOf
    rw [hsel]
    simp [hd, hf, hQ]
  have hlen : (historicalPatternsOf db uid sid).length ≠ 0 := by
    rw [hhist]
    simp
  rw [verify_scored db uid sid now hne hlen, hcur, hhist,
    matchScoreOf_self_singleton, aggregate_singleton, dwellMatch_self,
    flightMatch_self, totalMatch_self]
  simp

/-- Current and single historical session bit-identical (series [100, 120] and
[50, 60]); one recent successful attempt carries metadata score 1.125, so the
adaptive threshold is 0.9. -/
noncomputable def dbIdentical : DB :=
  ⟨[⟨100, 0, some 100, some 50⟩, ⟨100, 1, some 120, some 60⟩,
    ⟨7, 0, some 100, some 50⟩, ⟨7, 1, some 120, some 60⟩],
   [⟨7, 1⟩, ⟨100, 1⟩],
   [⟨1, true, true, true, 0, some 1.125⟩]⟩

/-- C1 counterexample: with the current pattern bit-identical to the single
selected historical pattern, verify reports similarities 1.0 and confidence
1.0 but match_score 0.8, not 1.0; with the threshold 0.9 ≤ 1.0 the
recommendation is challenge, not accept. -/
theorem claim_C1_counterexample :
    verify_keystroke_pattern dbIdentical 1 100 1 =
      .outcome 0.8 0.9 ⟨1, 1, 0, 1⟩ 1 2 .challenge
    ∧ (0.8 : ℝ) ≠ 1
    ∧ (0.9 : ℝ) ≤ 1 := by
  have hthr : calculate_adaptive_threshold dbIdentical 1 1 = 0.9 := by
    norm_num [calculate_adaptive_threshold, thresholdScores, dbIdentical,
      qualifiesForThreshold, sortByAttemptedDesc, insertByAttemptedDesc,
      List.filterMap_cons]
  have hcd : currentDwell dbIdentical 100 = [100, 120] := by
    norm_num [currentDwell, currentRows, dbIdentical, sortByCreated,
      insertByCreated, sanitizeDwell]
  have hcf : currentFlight dbIdentical 100 = [50, 60] := by
    norm_num [currentFlight, currentRows, dbIdentical, sortByCreated,
      insertByCreated, sanitizeFlight]
  have hhd : histDwell dbIdentical 7 = [100, 120] := by
    norm_num [histDwell, histRows, dbIdentical, sortByCreated,
      insertByCreated, sanitizeDwell]
  have hhf : histFlight dbIdentical 7 = [50, 60] := by
    norm_num [histFlight, histRows, dbIdentical, sortByCreated,
      insertByCreated, sanitizeFlight]
  have hsel : selectedHistoricalSessions dbIdentical 1 100
      (currentDwell dbIdentical 100).length = [7] := by
    rw [hcd]
    norm_num [selectedHistoricalSessions, historicalCandidateIds, dbIdentical,
      sortedIds, insertIdAsc, histRows, sortByCreated, insertByCreated]
  have hv := verify_single_identical dbIdentical 1 100 7 1
    (by rw [hcd]; norm_num) hsel (hhd.trans hcd.symm) (hhf.trans hcf.symm)
  rw [hthr] at hv
  rw [hv, hcd]
  refine ⟨?_, by norm_num, by norm_num⟩
  have hrec : recommend 0.8 0.9 = .challenge := by
    unfold recommend
    rw [if_neg (by norm_num), if_pos (by norm_num)]
  rw [hrec]
  norm_num

/-- C1 amended: when the current session's validated series coincide with
those of the single selected historical session, all reported similarities
and the confidence are 1.0, but match_score = 0.8 (the 0.2-weighted
consistency term is 0 for a single comparison), and the recommendation is
accept exactly for thresholds at most 0.8 — not for every threshold up to
1.0. -/
theorem claim_C1_amended (db : DB) (uid sid hist : ℕ) (now : ℤ)
    (hne : (currentDwell db sid).length ≠ 0)
    (hsel : selectedHistoricalSessions db uid sid (currentDwell db sid).length = [hist])
    (hd : histDwell db hist = currentDwell db sid)
    (hf : histFlight db hist = currentFlight db sid) :
    verify_keystroke_pattern db uid sid now =
      .outcome 0.8 (calculate_adaptive_threshold db uid now) ⟨1, 1, 0, 1⟩ 1
        (currentDwell db sid).length
        (recommend 0.8 (calculate_adaptive_threshold db uid now))
    ∧ (recommend 0.8 (calculate_adaptive_threshold db uid now) = .accept ↔
        calculate_adaptive_threshold db uid now ≤ 0.8) :=
  ⟨verify_single_identical db uid sid hist now hne hsel hd hf,
    recommend_accept_iff 0.8 (calculate_adaptive_threshold db uid now)⟩

/-- Identical current and historical single-row sessions with no scored
attempts: threshold 0.7, identical patterns, match 0.8, accept. -/
noncomputable def dbIdenticalDefault : DB :=
  ⟨[⟨100, 0, some 5, some 5⟩, ⟨7, 0, some 5, some 5⟩],
   [⟨7, 1⟩, ⟨100, 1⟩],
   [⟨1, true, true, true, 0, none⟩]⟩

/-- C1 witness for the amended statement at a concrete database. -/
theorem claim_C1_witness :
    verify_keystroke_pattern dbIdenticalDefault 1 100 1 =
      .outcome 0.8 (calculate_adaptive_threshold dbIdenticalDefault 1 1) ⟨1, 1, 0, 1⟩ 1
        (currentDwell dbIdenticalDefault 100).length
        (recommend 0.8 (calculate_adaptive_threshold dbIdenticalDefault 1 1))
    ∧ (recommend 0.8 (calculate_adaptive_threshold dbIdenticalDefault 1 1) = .accept ↔
        calculate_adaptive_threshold dbIdenticalDefault 1 1 ≤ 0.8) := by
  have hcd : currentDwell dbIdenticalDefault 100 = [5] := by
    norm_num [currentDwell, currentRows, dbIdenticalDefault, sortByCreated,
      insertByCreated, sanitizeDwell]
  have hcf : currentFlight dbIdenticalDefault 100 = [5] := by
    norm_num [currentFlight, currentRows, dbIdenticalDefault, sortByCreated,
      insertByCreated, sanitizeFlight]
  have hhd : histDwell dbIdenticalDefault 7 = [5] := by
    norm_num [histDwell, histRows, dbIdenticalDefault, sortByCreated,
      insertByCreated, sanitizeDwell]
  have hhf : histFlight dbIdenticalDefault 7 = [5] := by
    norm_num [histFlight, histRows, dbIdenticalDefault, sortByCreated,
      insertByCreated, sanitizeFlight]
  exact claim_C1_amended dbIdenticalDefault 1 100 7 1
    (by rw [hcd]; norm_num)
    (by
      rw [hcd]
      norm_num [selectedHistoricalSessions, historicalCandidateIds,
        dbIdenticalDefault, sortedIds, insertIdAsc, histRows, sortByCreated,
        insertByCreated])
    (hhd.trans hcd.symm) (hhf.trans hcf.symm)

/-- Six candidate sessions of subject 1 besides the current one: ids 1..5
have no keystroke rows, id 6 has exactly one row matching the current length;
one successful attempt exists.  The LIMIT 5 is applied before the length
filter, so the id-ordered cap [1, 2, 3, 4, 5] crowds out session 6. -/
noncomputable def dbCapBeforeFilter : DB :=
  ⟨[⟨6, 0, some 5, some 5⟩, ⟨100, 0, some 5, some 5⟩],
   [⟨1, 1⟩, ⟨2, 1⟩, ⟨3, 1⟩, ⟨4, 1⟩, ⟨5, 1⟩, ⟨6, 1⟩, ⟨100, 1⟩],
   [⟨1, true, true, true, 0, none⟩]⟩

/-- Two sessions of subject 1, one qualifying historical session. -/
noncomputable def dbSelectOne : DB :=
  ⟨[⟨7, 0, some 5, some 5⟩, ⟨100, 0, some 5, some 5⟩],
   [⟨7, 1⟩, ⟨100, 1⟩],
   [⟨1, true, true, true, 0, none⟩]⟩

/-- C4 counterexample: session 6 belongs to subject 1, differs from the
current session 100, has sample length exactly 1 = n, and the subject has a
successful attempt — yet the selector returns the empty list, because the cap
of 5 is applied to the id-ordered candidates before the length filter. -/
theorem claim_C4_counterexample :
    selectedHistoricalSessions dbCapBeforeFilter 1 100 1 = []
    ∧ (⟨6, 1⟩ : SessionRow) ∈ dbCapBeforeFilter.keystroke_sessions
    ∧ (6 : ℕ) ≠ 100
    ∧ (histRows dbCapBeforeFilter 6).length = 1
    ∧ (⟨1, true, true, true, 0, none⟩ : AuthAttemptRow) ∈
        dbCapBeforeFilter.auth_attempts := by
  refine ⟨?_, by simp [dbCapBeforeFilter], by norm_num, ?_, by simp [dbCapBeforeFilter]⟩
  · norm_num [selectedHistoricalSessions, historicalCandidateIds,
      dbCapBeforeFilter, sortedIds, insertIdAsc, histRows, sortByCreated,
      insertByCreated]
  · norm_num [histRows, dbCapBeforeFilter, sortByCreated, insertByCreated]

/-- C4 amended: the selector returns at most 5 session ids; every returned
session differs from the current one, has sample length exactly n, and
belongs to the subject, who moreover has at least one successful attempt
(the linkage to success is subject-level only — auth_attempts carries no
session reference).  The cap of 5 is applied to the subject's candidate
sessions in ascending session-id order before the length filter, so the
selection is not by attempt recency, and a length-n session can be crowded
out by lower-id candidates of other lengths (claim_C4_counterexample). -/
theorem claim_C4_amended (db : DB) (uid sid n : ℕ) :
    (selectedHistoricalSessions db uid sid n).length ≤ 5
  ∧ (∀ h ∈ selectedHistoricalSessions db uid sid n,
      h ≠ sid
      ∧ (histRows db h).length = n
      ∧ (∃ ks, ks ∈ db.keystroke_sessions ∧ ks.id = h ∧ ks.user_id = uid)
      ∧ (∃ aa, aa ∈ db.auth_attempts ∧ aa.user_id = uid ∧ aa.success = true)) := by
  constructor
  · calc (selectedHistoricalSessions db uid sid n).length
        ≤ (historicalCandidateIds db uid sid).length :=
          List.length_filter_le _ _
      _ ≤ 5 := by
          unfold historicalCandidateIds
          exact List.length_take_le 5 _
  · intro h hmem
    unfold selectedHistoricalSessions at hmem
    have hlen := List.of_mem_filter hmem
    have hmem2 : h ∈ historicalCandidateIds db uid sid :=
      List.mem_of_mem_filter hmem
    unfold historicalCandidateIds at hmem2
    have hmem3 := List.mem_of_mem_take hmem2
    rw [mem_sortedIds] at hmem3
    obtain ⟨ks, hks, hkid⟩ := List.mem_map.mp hmem3
    have hcond := List.of_mem_filter hks
    simp only [Bool.and_eq_true, beq_iff_eq, bne_iff_ne, ne_eq,
      List.any_eq_true] at hcond
    obtain ⟨⟨hu, hne⟩, aa, haa, hcondaa⟩ := hcond
    refine ⟨?_, by simpa using hlen,
      ⟨ks, List.mem_of_mem_filter hks, hkid, hu⟩,
      ⟨aa, haa, by rw [hcondaa.1, hu], hcondaa.2⟩⟩
    rw [← hkid]
    exact hne

/-- C4 witness: on a concrete database the selector output [7] satisfies all
the guaranteed properties. -/
theorem claim_C4_witness :
    (selectedHistoricalSessions dbSelectOne 1 100 1).length ≤ 5
    ∧ (7 : ℕ) ≠ 100
    ∧ (histRows dbSelectOne 7).length = 1 := by
  have h := claim_C4_amended dbSelectOne 1 100 1
  have h7 : (7 : ℕ) ∈ selectedHistoricalSessions dbSelectOne 1 100 1 := by
    norm_num [selectedHistoricalSessions, historicalCandidateIds, dbSelectOne,
      sortedIds, insertIdAsc, histRows, sortByCreated, insertByCreated]
  obtain ⟨hne, hlen, -, -⟩ := h.2 7 h7
  exact ⟨h.1, hne, hlen⟩

end Keystroke
